import Mathlib

/-!
# Verification of the Stagehand execution core

A shallow embedding, in Lean 4, of the two subsystems of the
`kairos-computer/stagehand` repository that the specification covers:

* the remote session protocol client (`StagehandAPIClient`): session start,
  streamed dispatch decode, replay-metrics aggregation;
* the agent step-orchestration engine (`V3AgentHandler`, in its base and
  simplified variants) and the computer-use action executor
  (`V3CuaAgentHandler`).

External collaborators (the HTTP transport, `JSON.parse`, the `ai` SDK
generation loop, the page-automation primitives, the tool-to-action mapping)
are represented as explicit parameters or abstract data; everything the
client or handler itself computes is translated directly from the source.
-/

namespace Stagehand

/-! ## Error taxonomy

The error classes raised by `StagehandAPIClient` (all subclasses of
`StagehandAPIError` in `types/public`), plus the plain `Error` the streamed
decode loop raises for a server-signalled failure. -/

inductive ApiErr where
  /-- Embeds `throw new Error(msg)` — a plain error, deliberately not wrapped. -/
  | plainError (msg : String)
  /-- Embeds `StagehandAPIUnauthorizedError` -/
  | unauthorized (msg : String)
  /-- Embeds `StagehandHttpError` -/
  | httpError (msg : String)
  /-- Embeds `StagehandAPIError` -/
  | apiError (msg : String)
  /-- Embeds `StagehandResponseBodyError` -/
  | responseBodyError
  /-- Embeds `StagehandResponseParseError` -/
  | responseParseError (msg : String)
  /-- Embeds `StagehandServerError` -/
  | serverError (msg : String)
  deriving DecidableEq, Repr

/-! ## JavaScript string primitives

Character-list-level embeddings of the JS string methods the source uses
(`toLowerCase`, `trim`, `startsWith`, `split("\n\n")`).  They are written
by structural recursion so that every concrete instance reduces inside the
kernel. -/

/-- JS `s.toLowerCase()` (ASCII, which is all the source compares). -/
def jsToLower (s : String) : String := String.mk (s.data.map Char.toLower)

/-- JS `s.trim()`: strip whitespace from both ends. -/
def jsTrim (s : String) : String :=
  String.mk
    (((s.data.dropWhile Char.isWhitespace).reverse.dropWhile Char.isWhitespace).reverse)

/-- JS `s.startsWith(p)`. -/
def jsStartsWith (s p : String) : Bool := p.data.isPrefixOf s.data

/-- Embeds `split` on the double-newline record separator, on character lists:
left-to-right, non-overlapping, like JS `s.split("\n\n")`. -/
def splitDoubleNewlineChars : List Char → List (List Char)
  | [] => [[]]
  | '\n' :: '\n' :: rest => [] :: splitDoubleNewlineChars rest
  | c :: rest =>
    match splitDoubleNewlineChars rest with
    | [] => [[c]]
    | seg :: segs => (c :: seg) :: segs

/-- JS `s.split("\n\n")`. -/
def jsSplitDoubleNewline (s : String) : List String :=
  (splitDoubleNewlineChars s.data).map String.mk

/-- Lemma: `splitDoubleNewlineChars` never yields the empty list (JS `split`
always yields at least one element). -/
theorem splitDoubleNewlineChars_ne_nil (l : List Char) :
    splitDoubleNewlineChars l ≠ [] := by
  rw [splitDoubleNewlineChars.eq_def]
  split
  · simp
  · simp
  · split <;> simp

/-- Lemma: `jsSplitDoubleNewline` never yields the empty list. -/
theorem jsSplitDoubleNewline_ne_nil (s : String) : jsSplitDoubleNewline s ≠ [] := by
  rw [jsSplitDoubleNewline]
  intro h
  exact splitDoubleNewlineChars_ne_nil s.data (List.map_eq_nil_iff.mp h)

/-! ## Session start (`StagehandAPIClient.init`)

The HTTP exchange is a parameter: a response is its status code, its raw
body text (what `response.text()` would yield) and, for the 200 case, the
parsed JSON payload `{success, message, data: {sessionId, available}}`
(a well-formed payload is assumed, as in the source's unconditional cast).
-/

/-- The slice of `StartSessionParams` that `init` branches on.
`region` is `browserbaseSessionCreateParams?.region`. -/
structure StartSessionParams where
  modelApiKey : Option String
  region : Option String
  browserbaseSessionID : Option String
  deriving DecidableEq, Repr

/-- Parsed body of a 200 response to `POST /sessions/start`:
`{success, message, data: {sessionId, available}}`. -/
structure SessionStartBody where
  success : Bool
  message : String
  sessionId : String
  available : Bool
  deriving DecidableEq, Repr

/-- An HTTP response to the session-start request. -/
structure SessionHttpResponse where
  status : Nat
  bodyText : String
  body : SessionStartBody
  deriving DecidableEq, Repr

/-- The mutable fields of `StagehandAPIClient` that `init` touches. -/
structure ClientState where
  sessionId : Option String
  modelApiKey : Option String
  deriving DecidableEq, Repr

/-- Embeds `init`'s return value (`StartSessionResult`).  `sessionId` is an
`Option` because the early-return branch yields `browserbaseSessionID ?? null`. -/
structure StartSessionResult where
  sessionId : Option String
  available : Bool
  deriving DecidableEq, Repr

/-- Embeds `StagehandAPIClient.init`, translated from `src/unnamed/part_000`
lines 72–138.  The response argument stands for the single
`POST /sessions/start` exchange; the early-return region branch never
performs that exchange, which the theorems express as independence from
this argument. -/
def clientInit (st : ClientState) (p : StartSessionParams)
    (resp : SessionHttpResponse) :
    Except ApiErr (StartSessionResult × ClientState) :=
  match p.modelApiKey with
  | none => .error (.apiError "modelApiKey is required")
  | some key =>
    let st1 : ClientState := { st with modelApiKey := some key }
    -- `if (region && region !== "us-west-2")`
    if p.region.isSome ∧ p.region ≠ some "us-west-2" then
      .ok ({ sessionId := p.browserbaseSessionID, available := false }, st1)
    else if resp.status = 401 then
      .error (.unauthorized "Unauthorized. Ensure you provided a valid API key.")
    else if resp.status ≠ 200 then
      -- the raw body is only logged; the raised error carries the status alone
      .error (.httpError ("Unknown error: " ++ toString resp.status))
    else if resp.body.success = false then
      .error (.apiError resp.body.message)
    else
      -- `this.sessionId = sessionResponseBody.data.sessionId;`
      let st2 : ClientState := { st1 with sessionId := some resp.body.sessionId }
      -- Temporary reroute for rollout: only the returned payload is patched
      let data : StartSessionResult :=
        if resp.body.available = false ∧ p.browserbaseSessionID.isSome then
          { sessionId := p.browserbaseSessionID, available := resp.body.available }
        else
          { sessionId := some resp.body.sessionId, available := resp.body.available }
      .ok (data, st2)

end Stagehand

namespace Stagehand

/-- A client state before `init`, used by concrete instantiations. -/
def freshClient : ClientState := { sessionId := none, modelApiKey := none }

/-- C1 counterexample: a 200 response marking the session `available:false`
with server id `"srv-1"`, while the caller supplied `browserbaseSessionID
= "ext-1"`.  After `init` the client's stored session id — the one every
downstream remote call (`dispatch`, `end`, metrics) embeds in its URL — is
the server-returned `"srv-1"`, not the caller-supplied `"ext-1"`; only the
*returned* payload carries the caller's id.  This falsifies the claim that
the client's session id equals the caller-supplied identifier. -/
theorem c1_counterexample :
    clientInit freshClient
      { modelApiKey := some "mk", region := none,
        browserbaseSessionID := some "ext-1" }
      { status := 200, bodyText := "",
        body := { success := true, message := "",
                  sessionId := "srv-1", available := false } }
      = .ok ({ sessionId := some "ext-1", available := false },
             { sessionId := some "srv-1", modelApiKey := some "mk" })
    ∧ (some "srv-1" : Option String) ≠ some "ext-1" := by
  constructor
  · rfl
  · decide

/-- C1 (amended): for every session-start response processed on the happy
path (`modelApiKey` supplied, no region early-return, status 200,
`success:true`): when the payload marks `available:false` and the caller
supplied an external `browserbaseSessionID`, the *returned* `sessionId` is
the caller-supplied identifier while the client's *stored* session id —
used by downstream remote calls — remains the server-returned id; when the
payload marks `available:true`, both the returned and the stored session id
equal the server-returned `sessionId`. -/
theorem c1_session_id_reroute (st : ClientState) (p : StartSessionParams)
    (resp : SessionHttpResponse) (k : String)
    (hk : p.modelApiKey = some k)
    (hr : ¬ (p.region.isSome ∧ p.region ≠ some "us-west-2"))
    (hs : resp.status = 200) (hsucc : resp.body.success = true) :
    (resp.body.available = false → p.browserbaseSessionID.isSome →
      clientInit st p resp =
        .ok ({ sessionId := p.browserbaseSessionID, available := false },
             { sessionId := some resp.body.sessionId, modelApiKey := some k }))
    ∧ (resp.body.available = true →
      clientInit st p resp =
        .ok ({ sessionId := some resp.body.sessionId, available := true },
             { sessionId := some resp.body.sessionId, modelApiKey := some k })) := by
  constructor
  · intro hav hext
    simp [clientInit, hk, hr, hs, hsucc, hav, hext]
  · intro hav
    simp [clientInit, hk, hr, hs, hsucc, hav]

/-- C1 witness -/
theorem c1_session_id_reroute_witness :
    clientInit freshClient
      { modelApiKey := some "mk", region := none,
        browserbaseSessionID := some "ext-1" }
      { status := 200, bodyText := "",
        body := { success := true, message := "",
                  sessionId := "srv-1", available := false } }
      = .ok ({ sessionId := some "ext-1", available := false },
             { sessionId := some "srv-1", modelApiKey := some "mk" }) := by
  have h := c1_session_id_reroute freshClient
    { modelApiKey := some "mk", region := none,
      browserbaseSessionID := some "ext-1" }
    { status := 200, bodyText := "",
      body := { success := true, message := "",
                sessionId := "srv-1", available := false } }
    "mk" rfl (by decide) rfl rfl
  exact h.1 rfl rfl

/-- C6 counterexample: two 500 responses to `/sessions/start` with distinct
body texts produce the *same* `StagehandHttpError` (`"Unknown error: 500"`):
the error carries the status but not the response body (the body is only
logged), falsifying "HttpError carrying the response status and body". -/
theorem c6_counterexample :
    clientInit freshClient
      { modelApiKey := some "mk", region := none, browserbaseSessionID := none }
      { status := 500, bodyText := "boom",
        body := { success := true, message := "", sessionId := "s", available := true } }
      = .error (.httpError "Unknown error: 500")
    ∧ clientInit freshClient
      { modelApiKey := some "mk", region := none, browserbaseSessionID := none }
      { status := 500, bodyText := "a completely different body",
        body := { success := true, message := "", sessionId := "s", available := true } }
      = .error (.httpError "Unknown error: 500") := by
  exact ⟨rfl, rfl⟩

/-- C6 (amended): for every session-start request (with `modelApiKey`
supplied and no region early-return), a 401 response fails with
`Unauthorized`; any other non-200 status fails with `HttpError` carrying
the response status (the body is only logged, not embedded in the error);
a 200 response whose payload marks `success:false` fails with `ApiError`
carrying the server message; and on a 200 success the server-returned
session identifier is stored on the client for subsequent calls. -/
theorem c6_start_session_errors (st : ClientState) (p : StartSessionParams)
    (resp : SessionHttpResponse) (k : String)
    (hk : p.modelApiKey = some k)
    (hr : ¬ (p.region.isSome ∧ p.region ≠ some "us-west-2")) :
    (resp.status = 401 →
      clientInit st p resp =
        .error (.unauthorized "Unauthorized. Ensure you provided a valid API key."))
    ∧ (resp.status ≠ 401 → resp.status ≠ 200 →
      clientInit st p resp =
        .error (.httpError ("Unknown error: " ++ toString resp.status)))
    ∧ (resp.status = 200 → resp.body.success = false →
      clientInit st p resp = .error (.apiError resp.body.message))
    ∧ (resp.status = 200 → resp.body.success = true →
      ∃ d, clientInit st p resp =
        .ok (d, { sessionId := some resp.body.sessionId, modelApiKey := some k })) := by
  refine ⟨?_, ?_, ?_, ?_⟩
  · intro h401
    simp [clientInit, hk, hr, h401]
  · intro h401 h200
    simp [clientInit, hk, hr, h401, h200]
  · intro h200 hsucc
    simp [clientInit, hk, hr, h200, hsucc]
  · intro h200 hsucc
    by_cases hav : resp.body.available = false ∧ p.browserbaseSessionID.isSome
    · exact ⟨{ sessionId := p.browserbaseSessionID, available := resp.body.available },
        by simp [clientInit, hk, hr, h200, hsucc, hav]⟩
    · exact ⟨{ sessionId := some resp.body.sessionId, available := resp.body.available },
        by simp [clientInit, hk, hr, h200, hsucc, hav]⟩

/-- C6 witness -/
theorem c6_start_session_errors_witness :
    clientInit freshClient
      { modelApiKey := some "mk", region := none, browserbaseSessionID := none }
      { status := 401, bodyText := "",
        body := { success := true, message := "", sessionId := "s", available := true } }
      = .error (.unauthorized "Unauthorized. Ensure you provided a valid API key.") := by
  exact (c6_start_session_errors freshClient
    { modelApiKey := some "mk", region := none, browserbaseSessionID := none }
    { status := 401, bodyText := "",
      body := { success := true, message := "", sessionId := "s", available := true } }
    "mk" rfl (by decide)).1 rfl

/-- C10: for every `init` call whose session-creation parameters specify a
region other than `"us-west-2"` (and with `modelApiKey` supplied), `init`
returns `{sessionId := the caller-supplied external id (or null),
available := false}` without issuing the HTTP request — the result is
independent of whatever the response would have been — and without storing
any session id on the client. -/
theorem c10_region_early_return (st : ClientState) (p : StartSessionParams)
    (resp resp' : SessionHttpResponse) (k r : String)
    (hk : p.modelApiKey = some k)
    (hreg : p.region = some r) (hne : r ≠ "us-west-2") :
    clientInit st p resp =
      .ok ({ sessionId := p.browserbaseSessionID, available := false },
           { sessionId := st.sessionId, modelApiKey := some k })
    ∧ clientInit st p resp = clientInit st p resp' := by
  have hcond : p.region.isSome ∧ p.region ≠ some "us-west-2" := by
    refine ⟨by simp [hreg], ?_⟩
    simp [hreg, hne]
  constructor
  · simp [clientInit, hk, hcond]
  · simp [clientInit, hk, hcond]

/-- C10 witness -/
theorem c10_region_early_return_witness :
    clientInit freshClient
      { modelApiKey := some "mk", region := some "eu-central-1",
        browserbaseSessionID := some "ext-9" }
      { status := 200, bodyText := "",
        body := { success := true, message := "", sessionId := "s", available := true } }
      = .ok ({ sessionId := some "ext-9", available := false },
             { sessionId := none, modelApiKey := some "mk" }) := by
  exact (c10_region_early_return freshClient
    { modelApiKey := some "mk", region := some "eu-central-1",
      browserbaseSessionID := some "ext-9" }
    { status := 200, bodyText := "",
      body := { success := true, message := "", sessionId := "s", available := true } }
    { status := 200, bodyText := "",
      body := { success := true, message := "", sessionId := "s", available := true } }
    "mk" "eu-central-1" rfl rfl (by decide)).1

/-! ## Replay metrics (`StagehandAPIClient.getReplayMetrics`)

The JSON summary fetched from `GET /sessions/{id}/replay` is modelled by
`ReplayPage`/`ReplayAction`/`ReplayTokenUsage` (the `ReplayMetricsResponse`
interface of the source); optional numeric fields carry `Option Nat`, and
`x || 0` becomes `Option.getD 0`. -/

/-- Embeds `tokenUsage` of one recorded action. -/
structure ReplayTokenUsage where
  inputTokens : Option Nat
  outputTokens : Option Nat
  reasoningTokens : Option Nat
  cachedInputTokens : Option Nat
  timeMs : Option Nat
  deriving DecidableEq, Repr

/-- One recorded action of the replay summary. -/
structure ReplayAction where
  method : Option String
  tokenUsage : Option ReplayTokenUsage
  deriving DecidableEq, Repr

/-- One page of the replay summary. -/
structure ReplayPage where
  actions : List ReplayAction
  deriving DecidableEq, Repr

/-- The `StagehandMetrics` record built by `getReplayMetrics`. -/
structure StagehandMetrics where
  actPromptTokens : Nat
  actCompletionTokens : Nat
  actReasoningTokens : Nat
  actCachedInputTokens : Nat
  actInferenceTimeMs : Nat
  extractPromptTokens : Nat
  extractCompletionTokens : Nat
  extractReasoningTokens : Nat
  extractCachedInputTokens : Nat
  extractInferenceTimeMs : Nat
  observePromptTokens : Nat
  observeCompletionTokens : Nat
  observeReasoningTokens : Nat
  observeCachedInputTokens : Nat
  observeInferenceTimeMs : Nat
  agentPromptTokens : Nat
  agentCompletionTokens : Nat
  agentReasoningTokens : Nat
  agentCachedInputTokens : Nat
  agentInferenceTimeMs : Nat
  totalPromptTokens : Nat
  totalCompletionTokens : Nat
  totalReasoningTokens : Nat
  totalCachedInputTokens : Nat
  totalInferenceTimeMs : Nat
  deriving DecidableEq, Repr

/-- The all-zero `StagehandMetrics` value `getReplayMetrics` starts from. -/
def initialMetrics : StagehandMetrics :=
  { actPromptTokens := 0, actCompletionTokens := 0, actReasoningTokens := 0
    actCachedInputTokens := 0, actInferenceTimeMs := 0
    extractPromptTokens := 0, extractCompletionTokens := 0
    extractReasoningTokens := 0, extractCachedInputTokens := 0
    extractInferenceTimeMs := 0
    observePromptTokens := 0, observeCompletionTokens := 0
    observeReasoningTokens := 0, observeCachedInputTokens := 0
    observeInferenceTimeMs := 0
    agentPromptTokens := 0, agentCompletionTokens := 0
    agentReasoningTokens := 0, agentCachedInputTokens := 0
    agentInferenceTimeMs := 0
    totalPromptTokens := 0, totalCompletionTokens := 0
    totalReasoningTokens := 0, totalCachedInputTokens := 0
    totalInferenceTimeMs := 0 }

/-- The per-action update of the `getReplayMetrics` loop body
(`src/unnamed/part_000` lines 316–362): the lower-cased method selects a
category whose five counters are bumped; the five `total*` counters are
bumped for *any* action carrying a `tokenUsage`, recognized method or not. -/
def updateMetricsForAction (metrics : StagehandMetrics) (action : ReplayAction) :
    StagehandMetrics :=
  let method := jsToLower (action.method.getD "")
  match action.tokenUsage with
  | none => metrics
  | some tu =>
    let inputTokens := tu.inputTokens.getD 0
    let outputTokens := tu.outputTokens.getD 0
    let reasoningTokens := tu.reasoningTokens.getD 0
    let cachedInputTokens := tu.cachedInputTokens.getD 0
    let timeMs := tu.timeMs.getD 0
    let m :=
      if method = "act" then
        { metrics with
          actPromptTokens := metrics.actPromptTokens + inputTokens
          actCompletionTokens := metrics.actCompletionTokens + outputTokens
          actReasoningTokens := metrics.actReasoningTokens + reasoningTokens
          actCachedInputTokens := metrics.actCachedInputTokens + cachedInputTokens
          actInferenceTimeMs := metrics.actInferenceTimeMs + timeMs }
      else if method = "extract" then
        { metrics with
          extractPromptTokens := metrics.extractPromptTokens + inputTokens
          extractCompletionTokens := metrics.extractCompletionTokens + outputTokens
          extractReasoningTokens := metrics.extractReasoningTokens + reasoningTokens
          extractCachedInputTokens := metrics.extractCachedInputTokens + cachedInputTokens
          extractInferenceTimeMs := metrics.extractInferenceTimeMs + timeMs }
      else if method = "observe" then
        { metrics with
          observePromptTokens := metrics.observePromptTokens + inputTokens
          observeCompletionTokens := metrics.observeCompletionTokens + outputTokens
          observeReasoningTokens := metrics.observeReasoningTokens + reasoningTokens
          observeCachedInputTokens := metrics.observeCachedInputTokens + cachedInputTokens
          observeInferenceTimeMs := metrics.observeInferenceTimeMs + timeMs }
      else if method = "agent" then
        { metrics with
          agentPromptTokens := metrics.agentPromptTokens + inputTokens
          agentCompletionTokens := metrics.agentCompletionTokens + outputTokens
          agentReasoningTokens := metrics.agentReasoningTokens + reasoningTokens
          agentCachedInputTokens := metrics.agentCachedInputTokens + cachedInputTokens
          agentInferenceTimeMs := metrics.agentInferenceTimeMs + timeMs }
      else metrics
    { m with
      totalPromptTokens := m.totalPromptTokens + inputTokens
      totalCompletionTokens := m.totalCompletionTokens + outputTokens
      totalReasoningTokens := m.totalReasoningTokens + reasoningTokens
      totalCachedInputTokens := m.totalCachedInputTokens + cachedInputTokens
      totalInferenceTimeMs := m.totalInferenceTimeMs + timeMs }

/-- The nested page/action fold of `getReplayMetrics`. -/
def replayMetricsOf (pages : List ReplayPage) : StagehandMetrics :=
  pages.foldl (fun m page => page.actions.foldl updateMetricsForAction m)
    initialMetrics

/-- Parsed body of the `GET /sessions/{id}/replay` response. -/
structure ReplayResponseBody where
  success : Bool
  errMsg : Option String
  pages : List ReplayPage
  deriving DecidableEq, Repr

/-- Embeds `StagehandAPIClient.getReplayMetrics` (`src/unnamed/part_000` lines
253–366): requires a session, checks the HTTP status and the `success`
flag, then folds every recorded action into `StagehandMetrics`. -/
def getReplayMetrics (sessionId : Option String) (status : Nat)
    (bodyText : String) (body : ReplayResponseBody) :
    Except ApiErr StagehandMetrics :=
  match sessionId with
  | none => .error (.apiError "sessionId is required to fetch metrics.")
  | some _ =>
    if status ≠ 200 then
      .error (.httpError
        ("Failed to fetch metrics with status " ++ toString status ++ ": " ++ bodyText))
    else if body.success = false then
      .error (.apiError
        ("Failed to fetch metrics: " ++ (body.errMsg.getD "Unknown error")))
    else
      .ok (replayMetricsOf body.pages)

/-- The four category counters summed, per field. -/
def categoryPromptSum (m : StagehandMetrics) : Nat :=
  m.actPromptTokens + m.extractPromptTokens + m.observePromptTokens + m.agentPromptTokens

def categoryCompletionSum (m : StagehandMetrics) : Nat :=
  m.actCompletionTokens + m.extractCompletionTokens + m.observeCompletionTokens
    + m.agentCompletionTokens

def categoryReasoningSum (m : StagehandMetrics) : Nat :=
  m.actReasoningTokens + m.extractReasoningTokens + m.observeReasoningTokens
    + m.agentReasoningTokens

def categoryCachedSum (m : StagehandMetrics) : Nat :=
  m.actCachedInputTokens + m.extractCachedInputTokens + m.observeCachedInputTokens
    + m.agentCachedInputTokens

def categoryTimeSum (m : StagehandMetrics) : Nat :=
  m.actInferenceTimeMs + m.extractInferenceTimeMs + m.observeInferenceTimeMs
    + m.agentInferenceTimeMs

/-- All five total-equals-category-sum equations at once. -/
def TotalsMatchCategories (m : StagehandMetrics) : Prop :=
  m.totalPromptTokens = categoryPromptSum m
  ∧ m.totalCompletionTokens = categoryCompletionSum m
  ∧ m.totalReasoningTokens = categoryReasoningSum m
  ∧ m.totalCachedInputTokens = categoryCachedSum m
  ∧ m.totalInferenceTimeMs = categoryTimeSum m

/-- The method names that update a named category. -/
def recognizedMethods : List String := ["act", "extract", "observe", "agent"]

/-- A usage-bearing action whose lower-cased method is recognized. -/
def actionRecognized (a : ReplayAction) : Prop :=
  a.tokenUsage.isSome → jsToLower (a.method.getD "") ∈ recognizedMethods

theorem updateMetricsForAction_preserves (m : StagehandMetrics)
    (a : ReplayAction) (ha : actionRecognized a)
    (hm : TotalsMatchCategories m) :
    TotalsMatchCategories (updateMetricsForAction m a) := by
  obtain ⟨h1, h2, h3, h4, h5⟩ := hm
  match htu : a.tokenUsage with
  | none =>
    simpa [updateMetricsForAction, htu] using ⟨h1, h2, h3, h4, h5⟩
  | some tu =>
    have hrec := ha (by simp [htu])
    simp only [recognizedMethods, List.mem_cons, List.mem_singleton,
      List.not_mem_nil, or_false] at hrec
    rcases hrec with hmeth | hmeth | hmeth | hmeth <;>
      simp [updateMetricsForAction, htu, hmeth, TotalsMatchCategories,
        categoryPromptSum, categoryCompletionSum, categoryReasoningSum,
        categoryCachedSum, categoryTimeSum, h1, h2, h3, h4, h5] <;>
      omega

theorem foldl_actions_preserves (m : StagehandMetrics) (l : List ReplayAction)
    (hl : ∀ a ∈ l, actionRecognized a) (hm : TotalsMatchCategories m) :
    TotalsMatchCategories (l.foldl updateMetricsForAction m) := by
  induction l generalizing m with
  | nil => simpa using hm
  | cons a rest ih =>
    simp only [List.foldl_cons]
    exact ih _ (fun x hx => hl x (List.mem_cons_of_mem a hx))
      (updateMetricsForAction_preserves m a (hl a (List.mem_cons_self a rest)) hm)

/-- A usage record carrying 5 prompt tokens, used by the C2 instances. -/
def usage5 : ReplayTokenUsage :=
  { inputTokens := some 5, outputTokens := none, reasoningTokens := none,
    cachedInputTokens := none, timeMs := none }

/-- A replay summary whose single action has the unrecognized method name
`"screenshot"`. -/
def unrecognizedPages : List ReplayPage :=
  [{ actions := [{ method := some "screenshot", tokenUsage := some usage5 }] }]

/-- C2 counterexample: a replay summary with a single action whose method
name `"screenshot"` is not one of the four recognized categories, carrying
5 prompt tokens.  `getReplayMetrics` yields `totalPromptTokens = 5` while
all four category prompt counters stay 0, so the total does not equal the
sum of the four category counters — the claim fails precisely on records
with unrecognized method names. -/
theorem c2_counterexample :
    (replayMetricsOf unrecognizedPages).totalPromptTokens = 5
    ∧ categoryPromptSum (replayMetricsOf unrecognizedPages) = 0
    ∧ (replayMetricsOf unrecognizedPages).totalPromptTokens ≠
        categoryPromptSum (replayMetricsOf unrecognizedPages) := by
  refine ⟨rfl, rfl, ?_⟩
  decide

/-- C2 (amended): for every replay summary in which each usage-bearing
action record's lower-cased method name is one of the four recognized
categories (`act`, `extract`, `observe`, `agent`), every total field of
the metrics built by `getReplayMetrics` equals the sum of the four
category counters for that field.  Records with unrecognized methods
update only the totals, so without that proviso the totals exceed the
category sums by the unrecognized records' contribution. -/
theorem c2_totals_equal_category_sums (pages : List ReplayPage)
    (h : ∀ page ∈ pages, ∀ a ∈ page.actions, actionRecognized a) :
    TotalsMatchCategories (replayMetricsOf pages) := by
  have hinit : TotalsMatchCategories initialMetrics :=
    ⟨rfl, rfl, rfl, rfl, rfl⟩
  rw [replayMetricsOf]
  have main : ∀ (ps : List ReplayPage) (m : StagehandMetrics),
      (∀ page ∈ ps, ∀ a ∈ page.actions, actionRecognized a) →
      TotalsMatchCategories m →
      TotalsMatchCategories
        (ps.foldl (fun m page => page.actions.foldl updateMetricsForAction m) m) := by
    intro ps
    induction ps with
    | nil => intro m _ hm; simpa using hm
    | cons page rest ih =>
      intro m hps hm
      simp only [List.foldl_cons]
      exact ih _ (fun p hp => hps p (List.mem_cons_of_mem page hp))
        (foldl_actions_preserves m page.actions
          (hps page (List.mem_cons_self page rest)) hm)
  exact main pages initialMetrics h hinit

/-- A usage record for the C2 witness. -/
def usageMixed : ReplayTokenUsage :=
  { inputTokens := some 3, outputTokens := some 2, reasoningTokens := some 1,
    cachedInputTokens := some 7, timeMs := some 40 }

/-- A replay summary all of whose usage-bearing actions carry a recognized
method name (case-insensitively). -/
def recognizedPages : List ReplayPage :=
  [{ actions := [{ method := some "Act", tokenUsage := some usage5 },
                 { method := some "agent", tokenUsage := some usageMixed }] }]

/-- C2 witness -/
theorem c2_totals_equal_category_sums_witness :
    (∀ page ∈ recognizedPages, ∀ a ∈ page.actions, actionRecognized a)
    ∧ TotalsMatchCategories (replayMetricsOf recognizedPages) := by
  have h : ∀ page ∈ recognizedPages, ∀ a ∈ page.actions, actionRecognized a := by
    intro page hp a ha
    simp only [recognizedPages, List.mem_singleton] at hp
    subst hp
    simp only [List.mem_cons, List.not_mem_nil, or_false] at ha
    rcases ha with ha | ha <;> subst ha <;> exact fun _ => by decide
  exact ⟨h, c2_totals_equal_category_sums _ h⟩

/-! ## Streamed dispatch decode (`StagehandAPIClient.execute`)

The response body is a list of UTF-8 chunks.  `JSON.parse` together with
the `type`/`data.status` field inspection is abstracted into a parameter
`parse : String → Except String EventData`: `.error m` is a `SyntaxError`
with message `m` (the only failure `JSON.parse` raises), `.ok` classifies
the parsed payload by its `type` discriminator. -/

/-- Classification of one parsed `data:` payload. -/
inductive EventData where
  /-- Embeds `type:"system"` with its `data.status`, `data.error`, `data.result`. -/
  | system (status : String) (errorMsg : String) (result : String)
  /-- Embeds `type:"log"` with its `data.message`. -/
  | log (message : String)
  /-- any other `type` discriminator: the loop ignores the record. -/
  | other
  deriving DecidableEq, Repr

/-- The embedded `JSON.parse` plus field inspection. -/
abbrev JsonParse := String → Except String EventData

/-- Handling of one complete record (the body of the `for` loop in
`src/unnamed/part_000` lines 410–450): records without the `data: `
prefix are skipped; a parse failure (`SyntaxError`) is wrapped in
`ResponseParseError`; a system record with status `error` raises a plain
error, unwrapped; status `finished` is the terminal result; logs and
unknown types continue. -/
def processLine (parse : JsonParse) (line : String) :
    Except ApiErr (Option String) :=
  if jsStartsWith line "data: " = false then .ok none
  else
    match parse (line.drop 6) with
    | .error m =>
      .error (.responseParseError ("Failed to parse server response: " ++ m))
    | .ok (.system status errorMsg result) =>
      if status = "error" then .error (.plainError errorMsg)
      else if status = "finished" then .ok (some result)
      else .ok none
    | .ok (.log _) => .ok none
    | .ok .other => .ok none

/-- The `for (const line of lines)` loop: first terminal outcome wins. -/
def processLines (parse : JsonParse) : List String → Except ApiErr (Option String)
  | [] => .ok none
  | line :: rest =>
    match processLine parse line with
    | .error e => .error e
    | .ok (some r) => .ok (some r)
    | .ok none => processLines parse rest

/-- Embeds `lines.pop() || ""`. -/
def lastPart (parts : List String) : String := parts.getLast?.getD ""

/-- The final-buffer attempt inside `if (done)` (lines 452–470): one more
parse of the retained partial record; only a `finished` system event is
terminal there, everything else (including a parse failure, which is
merely logged) falls through to `ServerError`. -/
def finalAttempt (parse : JsonParse) (buffer : String) : Except ApiErr String :=
  if jsTrim buffer ≠ "" ∧ jsStartsWith buffer "data: " = true then
    match parse (buffer.drop 6) with
    | .ok (.system status _ result) =>
      if status = "finished" then .ok result
      else .error (.serverError "Stream ended without completion signal")
    | _ => .error (.serverError "Stream ended without completion signal")
  else .error (.serverError "Stream ended without completion signal")

/-- The chunked read loop of `execute` (lines 397–475).  Each iteration
appends the next chunk to the buffer, splits on the double-newline record
separator, retains the trailing partial record, and processes the complete
records; the `[]` case is the `done` iteration: empty buffer means an
immediate `ServerError`, otherwise the leftover buffer is split and
processed one last time, followed by the final-buffer attempt. -/
def executeChunks (parse : JsonParse) (buffer : String) :
    List String → Except ApiErr String
  | [] =>
    if buffer = "" then
      .error (.serverError "Stream ended without completion signal")
    else
      let parts := jsSplitDoubleNewline buffer
      match processLines parse parts.dropLast with
      | .error e => .error e
      | .ok (some r) => .ok r
      | .ok none => finalAttempt parse (lastPart parts)
  | chunk :: rest =>
    let parts := jsSplitDoubleNewline (buffer ++ chunk)
    match processLines parse parts.dropLast with
    | .error e => .error e
    | .ok (some r) => .ok r
    | .ok none => executeChunks parse (lastPart parts) rest

/-- The streamed decode of one dispatch response. -/
def executeStream (parse : JsonParse) (chunks : List String) :
    Except ApiErr String :=
  executeChunks parse "" chunks

/-- The HTTP-level wrapper of `execute` around the decode loop: a non-ok
status raises `HttpError` with status and raw body, a missing body raises
`ResponseBodyError`. -/
def dispatchExecute (parse : JsonParse) (ok : Bool) (status : Nat)
    (errorBody : String) (body : Option (List String)) :
    Except ApiErr String :=
  if ok = false then
    .error (.httpError
      ("HTTP error! status: " ++ toString status ++ ", body: " ++ errorBody))
  else
    match body with
    | none => .error .responseBodyError
    | some chunks => executeStream parse chunks

/-- The complete records the loop sees, in order: the flattening of the
per-chunk split-and-retain discipline. -/
def emittedRecords (buffer : String) : List String → List String
  | [] => (jsSplitDoubleNewline buffer).dropLast
  | chunk :: rest =>
    let parts := jsSplitDoubleNewline (buffer ++ chunk)
    parts.dropLast ++ emittedRecords (lastPart parts) rest

/-- The partial record left in the buffer when the stream ends. -/
def finalBuffer (buffer : String) : List String → String
  | [] => lastPart (jsSplitDoubleNewline buffer)
  | chunk :: rest =>
    finalBuffer (lastPart (jsSplitDoubleNewline (buffer ++ chunk))) rest

/-- Record-level view of the loop: process the full record sequence, then
the final buffer. -/
def runRecords (parse : JsonParse) (records : List String) (finalBuf : String) :
    Except ApiErr String :=
  match processLines parse records with
  | .error e => .error e
  | .ok (some r) => .ok r
  | .ok none => finalAttempt parse finalBuf

theorem processLines_all_none (parse : JsonParse) (l : List String)
    (h : ∀ rec ∈ l, processLine parse rec = .ok none) :
    processLines parse l = .ok none := by
  induction l with
  | nil => rfl
  | cons p ps ih =>
    simp only [processLines, h p (List.mem_cons_self p ps)]
    exact ih (fun x hx => h x (List.mem_cons_of_mem p hx))

theorem processLines_first_some (parse : JsonParse) (pre rest : List String)
    (x : String) (r : String)
    (hpre : ∀ rec ∈ pre, processLine parse rec = .ok none)
    (hx : processLine parse x = .ok (some r)) :
    processLines parse (pre ++ x :: rest) = .ok (some r) := by
  induction pre with
  | nil => simp [processLines, hx]
  | cons p ps ih =>
    simp only [List.cons_append, processLines, hpre p (List.mem_cons_self p ps)]
    exact ih (fun y hy => hpre y (List.mem_cons_of_mem p hy))

theorem processLines_first_error (parse : JsonParse) (pre rest : List String)
    (x : String) (e : ApiErr)
    (hpre : ∀ rec ∈ pre, processLine parse rec = .ok none)
    (hx : processLine parse x = .error e) :
    processLines parse (pre ++ x :: rest) = .error e := by
  induction pre with
  | nil => simp [processLines, hx]
  | cons p ps ih =>
    simp only [List.cons_append, processLines, hpre p (List.mem_cons_self p ps)]
    exact ih (fun y hy => hpre y (List.mem_cons_of_mem p hy))

theorem processLines_append (parse : JsonParse) (l1 l2 : List String) :
    processLines parse (l1 ++ l2) =
      match processLines parse l1 with
      | .error e => .error e
      | .ok (some r) => .ok (some r)
      | .ok none => processLines parse l2 := by
  induction l1 with
  | nil => simp [processLines]
  | cons line rest ih =>
    simp only [List.cons_append, processLines]
    cases processLine parse line with
    | error e => rfl
    | ok o => cases o with
      | none => simpa using ih
      | some r => rfl

/-- Lemma: `finalAttempt "" ` is always the `ServerError`, so the `done && !buffer`
shortcut agrees with the record-level view. -/
theorem finalAttempt_empty (parse : JsonParse) :
    finalAttempt parse "" = .error (.serverError "Stream ended without completion signal") := by
  simp [finalAttempt, jsTrim]

/-- The chunked loop computes exactly the record-level view. -/
theorem executeChunks_eq_runRecords (parse : JsonParse) (chunks : List String)
    (buffer : String) :
    executeChunks parse buffer chunks =
      runRecords parse (emittedRecords buffer chunks) (finalBuffer buffer chunks) := by
  induction chunks generalizing buffer with
  | nil =>
    by_cases hb : buffer = ""
    · subst hb
      simp [executeChunks, emittedRecords, finalBuffer, runRecords,
        jsSplitDoubleNewline, splitDoubleNewlineChars, processLines, lastPart,
        finalAttempt_empty]
    · simp only [executeChunks, hb, if_neg, emittedRecords, finalBuffer,
        runRecords]
      rfl
  | cons chunk rest ih =>
    simp only [executeChunks, emittedRecords, finalBuffer, runRecords,
      processLines_append]
    cases h : processLines parse (jsSplitDoubleNewline (buffer ++ chunk)).dropLast with
    | error e => rfl
    | ok o => cases o with
      | none => simpa [runRecords] using ih (lastPart (jsSplitDoubleNewline (buffer ++ chunk)))
      | some r => rfl

/-- C4: for every streamed dispatch response, (1) if the records up to some
position are all non-terminal and the record at that position is a system
event with status `finished`, the decode loop returns exactly that event's
embedded result — whatever records or chunks follow (they are never read);
(2) if every complete record of the stream is non-terminal and the final
partial buffer does not hold a `finished` system event either, the decode
fails with `ServerError` (`"Stream ended without completion signal"`). -/
theorem c4_dispatch_stream_termination :
    (∀ (parse : JsonParse) (chunks pre rest : List String) (finRec em r : String),
      emittedRecords "" chunks = pre ++ finRec :: rest →
      (∀ rec ∈ pre, processLine parse rec = .ok none) →
      jsStartsWith finRec "data: " = true →
      parse (finRec.drop 6) = .ok (.system "finished" em r) →
      executeStream parse chunks = .ok r)
    ∧ (∀ (parse : JsonParse) (chunks : List String),
      (∀ rec ∈ emittedRecords "" chunks, processLine parse rec = .ok none) →
      (∀ em r, ¬ (jsStartsWith (finalBuffer "" chunks) "data: " = true ∧
        parse ((finalBuffer "" chunks).drop 6) = .ok (.system "finished" em r))) →
      executeStream parse chunks =
        .error (.serverError "Stream ended without completion signal")) := by
  constructor
  · intro parse chunks pre rest finRec em r hrec hpre hpref hparse
    rw [executeStream, executeChunks_eq_runRecords, hrec, runRecords]
    have hfin : processLine parse finRec = .ok (some r) := by
      simp [processLine, hpref, hparse]
    rw [processLines_first_some parse pre rest finRec r hpre hfin]
  · intro parse chunks hall hfb
    rw [executeStream, executeChunks_eq_runRecords, runRecords]
    rw [processLines_all_none parse _ hall]
    rw [finalAttempt]
    by_cases hc : jsTrim (finalBuffer "" chunks) ≠ "" ∧
        jsStartsWith (finalBuffer "" chunks) "data: " = true
    · rw [if_pos hc]
      cases hp : parse ((finalBuffer "" chunks).drop 6) with
      | error m => rfl
      | ok ev =>
        cases ev with
        | system status em r =>
          by_cases hs : status = "finished"
          · exact absurd ⟨hc.2, by rw [hp, hs]⟩ (hfb em r)
          · simp [hs]
        | log m => rfl
        | other => rfl
    · rw [if_neg hc]

/-- A concrete parser for instantiating the streaming theorems: `LOG1` is a
log event, `FIN` a finished system event with result `RESULT`, `ERR` a
system error event, anything else a JSON syntax error. -/
def demoParse : JsonParse := fun s =>
  if s = "LOG1" then .ok (.log "hello")
  else if s = "FIN" then .ok (.system "finished" "" "RESULT")
  else if s = "ERR" then .ok (.system "error" "boom from server" "")
  else .error "Unexpected token in JSON"

/-- C4 witness -/
theorem c4_dispatch_stream_termination_witness :
    executeStream demoParse ["data: LOG1\n\nda", "ta: FIN\n\ndata: garbage\n\n"]
      = .ok "RESULT"
    ∧ executeStream demoParse ["data: LOG1\n\npartial"]
      = .error (.serverError "Stream ended without completion signal") := by
  constructor
  · refine c4_dispatch_stream_termination.1 demoParse
      ["data: LOG1\n\nda", "ta: FIN\n\ndata: garbage\n\n"]
      ["data: LOG1"] ["data: garbage"] "data: FIN" "" "RESULT" (by decide) ?_ (by decide) rfl
    intro rec hrec
    rw [List.mem_singleton] at hrec
    subst hrec
    rfl
  · refine c4_dispatch_stream_termination.2 demoParse
      ["data: LOG1\n\npartial"] ?_ ?_
    · intro rec hrec
      have : emittedRecords "" ["data: LOG1\n\npartial"] = ["data: LOG1"] := by decide
      rw [this, List.mem_singleton] at hrec
      subst hrec
      rfl
    · intro em r h
      have : jsStartsWith (finalBuffer "" ["data: LOG1\n\npartial"]) "data: " = false := by
        decide
      rw [this] at h
      exact absurd h.1 (by decide)

/-- C7: for every streamed dispatch response, (1) a complete record that
begins with the `data: ` prefix and whose remainder fails to parse (a
`SyntaxError`, the only failure `JSON.parse` raises) makes the decode fail
with `ResponseParseError`, whose message embeds the underlying decode
failure (`"Failed to parse server response: " ++ m`); (2) the plain error
raised for a system record with status `error` propagates unchanged — it
is re-raised as-is, not wrapped into `ResponseParseError`. -/
theorem c7_parse_error_wrapping :
    (∀ (parse : JsonParse) (chunks pre rest : List String) (badRec m : String),
      emittedRecords "" chunks = pre ++ badRec :: rest →
      (∀ rec ∈ pre, processLine parse rec = .ok none) →
      jsStartsWith badRec "data: " = true →
      parse (badRec.drop 6) = .error m →
      executeStream parse chunks =
        .error (.responseParseError ("Failed to parse server response: " ++ m)))
    ∧ (∀ (parse : JsonParse) (chunks pre rest : List String) (errRec em res : String),
      emittedRecords "" chunks = pre ++ errRec :: rest →
      (∀ rec ∈ pre, processLine parse rec = .ok none) →
      jsStartsWith errRec "data: " = true →
      parse (errRec.drop 6) = .ok (.system "error" em res) →
      executeStream parse chunks = .error (.plainError em)) := by
  constructor
  · intro parse chunks pre rest badRec m hrec hpre hpref hparse
    rw [executeStream, executeChunks_eq_runRecords, hrec, runRecords]
    have hbad : processLine parse badRec =
        .error (.responseParseError ("Failed to parse server response: " ++ m)) := by
      simp [processLine, hpref, hparse]
    rw [processLines_first_error parse pre rest badRec _ hpre hbad]
  · intro parse chunks pre rest errRec em res hrec hpre hpref hparse
    rw [executeStream, executeChunks_eq_runRecords, hrec, runRecords]
    have herr : processLine parse errRec = .error (.plainError em) := by
      simp [processLine, hpref, hparse]
    rw [processLines_first_error parse pre rest errRec _ hpre herr]

/-- C7 witness -/
theorem c7_parse_error_wrapping_witness :
    executeStream demoParse ["data: LOG1\n\ndata: BAD\n\n"]
      = .error (.responseParseError
          "Failed to parse server response: Unexpected token in JSON")
    ∧ executeStream demoParse ["data: ERR\n\n"]
      = .error (.plainError "boom from server") := by
  constructor
  · refine c7_parse_error_wrapping.1 demoParse ["data: LOG1\n\ndata: BAD\n\n"]
      ["data: LOG1"] [] "data: BAD" "Unexpected token in JSON" (by decide) ?_
      (by decide) rfl
    intro rec hrec
    rw [List.mem_singleton] at hrec
    subst hrec
    rfl
  · refine c7_parse_error_wrapping.2 demoParse ["data: ERR\n\n"]
      [] [] "data: ERR" "boom from server" "" (by decide) ?_ (by decide) rfl
    intro rec hrec
    exact absurd hrec (List.not_mem_nil rec)

/-! ## Agent step orchestration (`V3AgentHandler`)

Two variants exist: the base one
(`src/packages/core/lib/v3/handlers/v3AgentHandler.ts`) and the
simplified, hook-bearing one (`src/unnamed/part_001`).  The language-model
client is external; one model step is its `text` plus its list of tool
calls.  The multi-step `generateText` loop of the external `ai` SDK is
modelled from the spec: the model is invoked step after step, and the run
continues while the last step issued tool calls and the caller's stop
predicate is false. -/

/-- One tool call of a model step (`toolName`, and the `taskComplete` /
`reasoning` arguments the `close` tool carries). -/
structure ToolCall where
  toolName : String
  taskComplete : Bool
  reasoning : Option String
  deriving DecidableEq, Repr

/-- One model step: assistant text plus tool calls. -/
structure Step where
  text : String
  toolCalls : List ToolCall
  deriving DecidableEq, Repr

/-- Embeds `lastStep?.toolCalls?.some((tc) => tc.toolName === "close")`. -/
def hasCloseCall (step : Step) : Bool :=
  step.toolCalls.any (fun tc => tc.toolName == "close")

/-- Modelled from the spec: the `ai` SDK helper `stepCountIs(n)` — true
when the accumulated step count has reached `n`. -/
def stepCountIs (n : Nat) (steps : List Step) : Bool := steps.length == n

/-- Embeds `V3AgentHandler.handleStop` (base variant, lines 333–342): stop when
the last step carries a `close` tool call, otherwise defer to
`stepCountIs(maxSteps)`. -/
def handleStop (maxSteps : Nat) (steps : List Step) : Bool :=
  match steps.getLast? with
  | some lastStep => hasCloseCall lastStep || stepCountIs maxSteps steps
  | none => stepCountIs maxSteps steps

/-- Modelled from the spec: the external `ai` SDK `generateText` loop.
Each iteration asks the model for the next step; the run returns when the
step issued no tool calls or the stop predicate holds on the accumulated
steps, and continues otherwise.  `fuel` bounds the recursion; every
theorem supplies enough of it. -/
def runLoop (stopWhen : List Step → Bool) (model : Nat → Step) :
    Nat → List Step → List Step
  | 0, steps => steps
  | fuel + 1, steps =>
    let step := model steps.length
    let steps2 := steps ++ [step]
    if step.toolCalls.isEmpty || stopWhen steps2 then steps2
    else runLoop stopWhen model fuel steps2

/-- Embeds `options.maxSteps || 20` (base variant; JS `||` treats 0 as absent). -/
def baseMaxSteps (o : Option Nat) : Nat :=
  match o with
  | some n => if n = 0 then 20 else n
  | none => 20

/-- Embeds `options.maxSteps || 10` (simplified variant). -/
def simplifiedMaxSteps (o : Option Nat) : Nat :=
  match o with
  | some n => if n = 0 then 10 else n
  | none => 10

/-- The steps a base-variant run performs: `stopWhen` is `handleStop`. -/
def baseRunSteps (maxStepsOpt : Option Nat) (model : Nat → Step) (fuel : Nat) :
    List Step :=
  runLoop (handleStop (baseMaxSteps maxStepsOpt)) model fuel []

/-- The steps a simplified-variant run performs: `stopWhen` is
`stepCountIs(maxSteps)` alone — the `close` tool does not appear in the
stop predicate. -/
def simplifiedRunSteps (maxStepsOpt : Option Nat) (model : Nat → Step)
    (fuel : Nat) : List Step :=
  runLoop (stepCountIs (simplifiedMaxSteps maxStepsOpt)) model fuel []

/-- The `completed` flag the step handler accumulates: set exactly when
some processed tool call is named `close`. -/
def runCompleted (steps : List Step) : Bool := steps.any hasCloseCall

theorem baseMaxSteps_pos (o : Option Nat) : 1 ≤ baseMaxSteps o := by
  match o with
  | none => simp [baseMaxSteps]
  | some n =>
    by_cases h : n = 0
    · simp [baseMaxSteps, h]
    · simp only [baseMaxSteps, h, if_false]
      omega

theorem simplifiedMaxSteps_pos (o : Option Nat) : 1 ≤ simplifiedMaxSteps o := by
  match o with
  | none => simp [simplifiedMaxSteps]
  | some n =>
    by_cases h : n = 0
    · simp [simplifiedMaxSteps, h]
    · simp only [simplifiedMaxSteps, h, if_false]
      omega

/-- A run whose model never closes and always issues tool calls counts out
to exactly `m` steps, whenever the stop predicate agrees with
`stepCountIs m` on close-free step lists. -/
theorem runLoop_counts_out (m : Nat) (stopWhen : List Step → Bool)
    (model : Nat → Step)
    (hstop : ∀ steps : List Step, (∀ s ∈ steps, hasCloseCall s = false) →
      stopWhen steps = stepCountIs m steps)
    (hnc : ∀ n, hasCloseCall (model n) = false)
    (hne : ∀ n, (model n).toolCalls ≠ []) :
    ∀ (fuel : Nat) (steps : List Step),
      (∀ s ∈ steps, hasCloseCall s = false) →
      steps.length < m → m - steps.length ≤ fuel →
      (runLoop stopWhen model fuel steps).length = m
      ∧ ∀ s ∈ runLoop stopWhen model fuel steps, hasCloseCall s = false := by
  intro fuel
  induction fuel with
  | zero =>
    intro steps _ hlt hfuel
    omega
  | succ f ih =>
    intro steps hsteps hlt hfuel
    rw [runLoop]
    have hall2 : ∀ s ∈ steps ++ [model steps.length], hasCloseCall s = false := by
      intro s hs
      rcases List.mem_append.mp hs with h | h
      · exact hsteps s h
      · rw [List.mem_singleton] at h; subst h; exact hnc steps.length
    have hlen2 : (steps ++ [model steps.length]).length = steps.length + 1 := by
      simp
    have hie : (model steps.length).toolCalls.isEmpty = false := by
      rw [List.isEmpty_eq_false_iff_exists_mem]
      match hcalls : (model steps.length).toolCalls with
      | [] => exact absurd hcalls (hne steps.length)
      | c :: cs => exact ⟨c, List.mem_cons_self c cs⟩
    rw [hie, hstop _ hall2]
    by_cases hdone : steps.length + 1 = m
    · have : stepCountIs m (steps ++ [model steps.length]) = true := by
        simp [stepCountIs, hlen2, hdone]
      rw [this]
      simp only [Bool.false_or, if_true]
      exact ⟨by rw [hlen2, hdone], hall2⟩
    · have : stepCountIs m (steps ++ [model steps.length]) = false := by
        simp [stepCountIs, hlen2]
        omega
      rw [this]
      simp only [Bool.false_or, Bool.or_false, if_false]
      exact ih (steps ++ [model steps.length]) hall2 (by omega) (by omega)

/-- Lemma: `handleStop` agrees with `stepCountIs` on close-free step lists. -/
theorem handleStop_eq_stepCountIs (m : Nat) (steps : List Step)
    (h : ∀ s ∈ steps, hasCloseCall s = false) :
    handleStop m steps = stepCountIs m steps := by
  rw [handleStop]
  match hl : steps.getLast? with
  | none => rfl
  | some lastStep =>
    have hmem : lastStep ∈ steps := List.mem_of_getLast?_eq_some hl
    simp only [h lastStep hmem, Bool.false_or]

/-- A single step whose tool calls include a `close` invocation. -/
def closeStep : Step :=
  { text := "", toolCalls := [{ toolName := "close", taskComplete := true,
                                reasoning := none }] }

/-- C3 counterexample: in the simplified variant with no caller-supplied
`maxSteps`, a model whose very first step invokes `close` does not stop
after 1 step: the stop predicate is `stepCountIs(10)` alone, so the run
performs all 10 default steps.  This falsifies "in either variant the
loop stops at the first model step whose tool calls include a close
invocation". -/
theorem c3_counterexample :
    hasCloseCall closeStep = true
    ∧ (simplifiedRunSteps none (fun _ => closeStep) 20).length = 10
    ∧ (simplifiedRunSteps none (fun _ => closeStep) 20).length ≠ 1 := by
  refine ⟨rfl, by decide, by decide⟩

/-- C3 (amended): the default step budget is 20 for the base variant and
10 for the simplified one.  The *base* variant stops at the first model
step whose tool calls include a `close` invocation or when the step count
reaches `maxSteps`, whichever comes first — in particular a first-step
`close` stops it after exactly 1 step.  The *simplified* variant stops on
the step count alone (`close` only marks the run completed; it does not
stop the loop).  In both variants, a run that never invokes `close` and
whose model keeps issuing tool calls performs exactly `maxSteps` model
steps — 3 when `maxSteps = 3` — and ends with `completed = false`. -/
theorem c3_stop_conditions :
    (baseMaxSteps none = 20 ∧ simplifiedMaxSteps none = 10)
    ∧ (∀ (model : Nat → Step) (mo : Option Nat) (fuel : Nat), 1 ≤ fuel →
        hasCloseCall (model 0) = true →
        baseRunSteps mo model fuel = [model 0])
    ∧ (∀ (model : Nat → Step) (mo : Option Nat) (fuel : Nat),
        (∀ n, hasCloseCall (model n) = false) →
        (∀ n, (model n).toolCalls ≠ []) →
        baseMaxSteps mo ≤ fuel → simplifiedMaxSteps mo ≤ fuel →
        ((baseRunSteps mo model fuel).length = baseMaxSteps mo
          ∧ runCompleted (baseRunSteps mo model fuel) = false)
        ∧ ((simplifiedRunSteps mo model fuel).length = simplifiedMaxSteps mo
          ∧ runCompleted (simplifiedRunSteps mo model fuel) = false)) := by
  refine ⟨⟨rfl, rfl⟩, ?_, ?_⟩
  · intro model mo fuel hfuel hclose
    match fuel, hfuel with
    | f + 1, _ =>
      rw [baseRunSteps, runLoop]
      have hie : (model 0).toolCalls.isEmpty = false := by
        rw [List.isEmpty_eq_false_iff_exists_mem]
        match hcalls : (model 0).toolCalls with
        | [] =>
          rw [hasCloseCall, hcalls] at hclose
          simp [List.any_nil] at hclose
        | c :: cs => exact ⟨c, List.mem_cons_self c cs⟩
      have hstop : handleStop (baseMaxSteps mo) ([] ++ [model 0]) = true := by
        rw [handleStop]
        simp only [List.nil_append, List.getLast?_singleton]
        rw [hclose, Bool.true_or]
      simp only [List.length_nil, hie, List.nil_append] at hstop ⊢
      rw [hstop]
      simp
  · intro model mo fuel hnc hne hfb hfs
    constructor
    · have h := runLoop_counts_out (baseMaxSteps mo)
        (handleStop (baseMaxSteps mo)) model
        (fun steps hs => handleStop_eq_stepCountIs (baseMaxSteps mo) steps hs)
        hnc hne fuel [] (by intro s hs; exact absurd hs (List.not_mem_nil s))
        (by simpa using baseMaxSteps_pos mo) (by simpa using hfb)
      refine ⟨h.1, ?_⟩
      rw [runCompleted, List.any_eq_false]
      intro s hs
      simp [h.2 s hs]
    · have h := runLoop_counts_out (simplifiedMaxSteps mo)
        (stepCountIs (simplifiedMaxSteps mo)) model
        (fun steps _ => rfl)
        hnc hne fuel [] (by intro s hs; exact absurd hs (List.not_mem_nil s))
        (by simpa using simplifiedMaxSteps_pos mo) (by simpa using hfs)
      refine ⟨h.1, ?_⟩
      rw [runCompleted, List.any_eq_false]
      intro s hs
      simp [h.2 s hs]

/-- A step with one non-close tool call, for witnesses. -/
def actStep : Step :=
  { text := "looking", toolCalls := [{ toolName := "act", taskComplete := false,
                                       reasoning := none }] }

/-- C3 witness -/
theorem c3_stop_conditions_witness :
    baseRunSteps none (fun _ => closeStep) 1 = [closeStep]
    ∧ (baseRunSteps (some 3) (fun _ => actStep) 25).length = 3
    ∧ runCompleted (baseRunSteps (some 3) (fun _ => actStep) 25) = false
    ∧ (simplifiedRunSteps (some 3) (fun _ => actStep) 25).length = 3
    ∧ runCompleted (simplifiedRunSteps (some 3) (fun _ => actStep) 25) = false := by
  have h1 := c3_stop_conditions.2.1 (fun _ => closeStep) none 1 (by decide) (by decide)
  have h2 := c3_stop_conditions.2.2 (fun _ => actStep) (some 3) 25
    (fun _ => by simp [actStep, hasCloseCall]) (fun _ => by simp [actStep])
    (by decide) (by decide)
  exact ⟨h1, h2.1.1, h2.1.2, h2.2.1, h2.2.2⟩

/-! ## Agent run state and result construction

The step-finish handler mutates one run's `AgentState`; the tool-call to
action mapping (`mapToolResultToActions`) and the page-URL queries
(`awaitActivePage().url()`) are external collaborators, passed in as
`mapActs` and `urls` (`urls 0` being the initial URL and `urls (n+1)` the
URL observed after the `n`-th processed step).  Wall-clock timestamps and
durations are not modelled. -/

/-- One mapped `AgentAction` (only the fields the handler itself writes). -/
structure AgentAction where
  name : String
  pageUrl : String
  deriving DecidableEq, Repr

/-- The tool-call to action mapping, external to the handler.  Its second
argument is `event.text || undefined`, the reasoning forwarded per call. -/
abbrev MapActs := ToolCall → Option String → List AgentAction

/-- Embeds `AgentState` (per-run mutable state of both handler variants). -/
structure AgentState where
  collectedReasoning : List String
  actions : List AgentAction
  finalMessage : String
  completed : Bool
  currentPageUrl : String
  deriving DecidableEq, Repr

/-- Public usage shape of `AgentResult` (`inference_time_ms` omitted:
wall-clock time is not modelled). -/
structure AgentUsage where
  inputTokens : Nat
  outputTokens : Nat
  reasoningTokens : Nat
  cachedInputTokens : Nat
  deriving DecidableEq, Repr

/-- Embeds `AgentResult`. -/
structure AgentResult where
  success : Bool
  message : String
  actions : List AgentAction
  completed : Bool
  usage : Option AgentUsage
  deriving DecidableEq, Repr

/-- The body of the `for` loop over a step's tool calls, shared verbatim
by both handler variants: push the step text as reasoning (once per tool
call, as in the source), handle the `close` tool, then append the mapped
actions tagged with the page URL in effect before the step executed. -/
def processToolCall (mapActs : MapActs) (text : String) (st : AgentState)
    (tc : ToolCall) : AgentState :=
  let st1 :=
    if text.length > 0 then
      { st with collectedReasoning := st.collectedReasoning ++ [text] }
    else st
  let st2 :=
    if tc.toolName = "close" then
      let stc := { st1 with completed := true }
      if tc.taskComplete then
        let allReasoning := String.intercalate " " stc.collectedReasoning
        { stc with finalMessage :=
            match tc.reasoning with
            | some closeReasoning => jsTrim (allReasoning ++ " " ++ closeReasoning)
            | none =>
              if allReasoning = "" then "Task completed successfully"
              else allReasoning }
      else stc
    else st1
  let mapped := mapActs tc (if text = "" then none else some text)
  { st2 with
    actions := st2.actions ++ mapped.map (fun a => { a with pageUrl := st2.currentPageUrl }) }

/-- One `onStepFinish` invocation (shared body of both variants): if the
step issued tool calls, process each and then refresh the tracked page
URL. -/
def applyStepEvent (mapActs : MapActs) (newUrl : String) (st : AgentState)
    (ev : Step) : AgentState :=
  if ev.toolCalls.isEmpty then st
  else
    let st1 := ev.toolCalls.foldl (processToolCall mapActs ev.text) st
    { st1 with currentPageUrl := newUrl }

/-- The fresh `AgentState` at the start of a run. -/
def initialAgentState (url : String) : AgentState :=
  { collectedReasoning := [], actions := [], finalMessage := "",
    completed := false, currentPageUrl := url }

/-- The run state of the base variant after processing `steps`. -/
def runStateBase (mapActs : MapActs) (urls : Nat → String)
    (steps : List Step) : AgentState :=
  steps.enum.foldl
    (fun st p => applyStepEvent mapActs (urls (p.1 + 1)) st p.2)
    (initialAgentState (urls 0))

/-- Embeds `consolidateMetricsAndResult` (base variant lines 276–314; the
simplified variant inlines the identical computation): fall back from the
close-time final message to the joined reasoning, then to the model's own
text, then to `"Task execution completed"`. -/
def consolidateResult (st : AgentState) (resultText : String)
    (usage : Option AgentUsage) : AgentResult :=
  let finalMessage :=
    if st.finalMessage = "" then
      let allReasoning := jsTrim (String.intercalate " " st.collectedReasoning)
      if allReasoning = "" then resultText else allReasoning
    else st.finalMessage
  { success := st.completed,
    message := if finalMessage = "" then "Task execution completed" else finalMessage,
    actions := st.actions,
    completed := st.completed,
    usage := usage }

/-- Outcome of the external `generateText` call: either it finished
normally after processing `steps` (with the model's trailing text and
usage), or it raised with message `msg` after `steps` had been processed
through `onStepFinish`. -/
inductive GenOutcome where
  | finished (steps : List Step) (text : String) (usage : Option AgentUsage)
  | threw (steps : List Step) (msg : String)

/-- Embeds `MissingLLMConfigurationError`, the only preparation failure the
claims name.  Its message text lives outside `src/`; the concrete string
is immaterial to every theorem below. -/
inductive SdkError where
  | missingLLMConfiguration
  deriving DecidableEq, Repr

/-- Modelled from the spec: the human-readable message of
`MissingLLMConfigurationError` (defined in `sdkErrors`, outside `src/`). -/
def SdkError.message : SdkError → String
  | .missingLLMConfiguration => "No LLM configured"

/-- Embeds `V3AgentHandler.execute`, base variant (lines 156–204): `prepareAgent`
— including the model-client check — runs *before* the `try`, so its
failures propagate; any failure of the generation loop is caught and
converted into a failed `AgentResult` carrying the actions accumulated so
far. -/
def executeBase (hasModel : Bool) (mapActs : MapActs) (urls : Nat → String)
    (out : GenOutcome) : Except SdkError AgentResult :=
  if hasModel = false then .error .missingLLMConfiguration
  else
    match out with
    | .threw steps msg =>
      let st := runStateBase mapActs urls steps
      .ok { success := false, actions := st.actions,
            message := "Failed to execute task: " ++ msg,
            completed := false, usage := none }
    | .finished steps text usage =>
      .ok (consolidateResult (runStateBase mapActs urls steps) text usage)

/-! ### Simplified variant with lifecycle hooks (`src/unnamed/part_001`) -/

/-- What one hook invocation does: return a stop flag, or raise. -/
inductive HookOutcome where
  | ret (stop : Bool)
  | raised (msg : String)
  deriving DecidableEq, Repr

/-- Whether the outcome is a raised failure. -/
def HookOutcome.isRaised : HookOutcome → Bool
  | .raised _ => true
  | .ret _ => false

/-- The caller-supplied lifecycle hooks, keyed by step number. -/
structure Hooks where
  onStepStart : Option (Nat → HookOutcome)
  onStepEnd : Option (Nat → HookOutcome)

/-- The absent-hooks configuration. -/
def noHooks : Hooks := { onStepStart := none, onStepEnd := none }

/-- Run state of the simplified variant: the shared `AgentState` plus the
`currentStepNumber` counter the fork added. -/
structure SimpState where
  core : AgentState
  stepNumber : Nat
  deriving DecidableEq, Repr

/-- The guarded `on_step_start` invocation of the simplified variant: the
hook runs inside a `try`/`catch` that logs and swallows any failure, so a
raised failure never yields the truthy stop request. -/
def startStopOf (hooks : Hooks) (stepNumber : Nat) : Bool :=
  match hooks.onStepStart with
  | some h =>
    match h stepNumber with
    | .ret b => b
    | .raised _ => false
  | none => false

/-- One `onStepFinish` invocation of the simplified variant (lines
131–222): bump the step number; invoke `on_step_start` (guarded) — a
truthy stop request marks the run completed and skips the step's
processing; otherwise process the step as in the base variant; finally
invoke `on_step_end`, whose outcome — normal or raised (also caught and
logged) — never touches the run state. -/
def stepFinishSimplified (hooks : Hooks) (mapActs : MapActs) (newUrl : String)
    (st : SimpState) (ev : Step) : SimpState :=
  let stepNumber := st.stepNumber + 1
  if startStopOf hooks stepNumber then
    { core := { st.core with completed := true }, stepNumber := stepNumber }
  else
    { core := applyStepEvent mapActs newUrl st.core ev, stepNumber := stepNumber }

/-- The run state of the simplified variant after processing `steps`. -/
def runStateSimplified (hooks : Hooks) (mapActs : MapActs) (urls : Nat → String)
    (steps : List Step) : SimpState :=
  steps.enum.foldl
    (fun st p => stepFinishSimplified hooks mapActs (urls (p.1 + 1)) st p.2)
    { core := initialAgentState (urls 0), stepNumber := 0 }

/-- Embeds `V3AgentHandler.execute`, simplified variant (lines 80–272): unlike
the base variant, the *whole* preparation — including the
`MissingLLMConfigurationError` throw — sits inside the `try`, so a missing
model client is also converted into a failed `AgentResult` instead of
propagating. -/
def executeSimplified (hooks : Hooks) (hasModel : Bool) (mapActs : MapActs)
    (urls : Nat → String) (out : GenOutcome) : Except SdkError AgentResult :=
  if hasModel = false then
    .ok { success := false, actions := [],
          message := "Failed to execute task: "
            ++ SdkError.message .missingLLMConfiguration,
          completed := false, usage := none }
  else
    match out with
    | .threw steps msg =>
      let st := runStateSimplified hooks mapActs urls steps
      .ok { success := false, actions := st.core.actions,
            message := "Failed to execute task: " ++ msg,
            completed := false, usage := none }
    | .finished steps text usage =>
      .ok (consolidateResult (runStateSimplified hooks mapActs urls steps).core
        text usage)

/-- A tool-call mapping that maps every call to no actions. -/
def mapActsNone : MapActs := fun _ _ => []

/-- A constant page-URL observation. -/
def urlsConst : Nat → String := fun _ => "about:blank"

/-- C5 counterexample: in the simplified variant, a run with no model
client configured does *not* propagate `MissingLLMConfigurationError` —
the throw sits inside the `try`, so `execute` returns a failed
`AgentResult` (`success:false`, message embedding the error) instead of
raising.  This falsifies "only failures raised while preparing the run (in
particular MissingModelConfiguration) propagate as raw exceptions" for
that variant. -/
theorem c5_counterexample :
    executeSimplified noHooks false mapActsNone urlsConst (.finished [] "" none)
      = .ok { success := false, actions := [],
              message := "Failed to execute task: "
                ++ SdkError.message .missingLLMConfiguration,
              completed := false, usage := none }
    ∧ executeSimplified noHooks false mapActsNone urlsConst (.finished [] "" none)
      ≠ .error .missingLLMConfiguration := by
  refine ⟨rfl, ?_⟩
  intro h
  rw [executeSimplified] at h
  exact Except.noConfusion h

/-- C5 (amended): in both variants, any failure raised during the
generation loop is converted into a failed `AgentResult` — `success:false`,
the actions accumulated so far, `completed:false`, and a message embedding
the underlying error — rather than propagating to the caller of `execute`.
In the *base* variant a preparation failure (`MissingLLMConfiguration`)
propagates as a raw exception; in the *simplified* variant the model-client
check also sits inside the `try`, so even that failure is converted into a
failed `AgentResult`. -/
theorem c5_error_conversion :
    (∀ (mapActs : MapActs) (urls : Nat → String) (steps : List Step) (msg : String),
      executeBase true mapActs urls (.threw steps msg) =
        .ok { success := false,
              actions := (runStateBase mapActs urls steps).actions,
              message := "Failed to execute task: " ++ msg,
              completed := false, usage := none })
    ∧ (∀ (hooks : Hooks) (mapActs : MapActs) (urls : Nat → String)
        (steps : List Step) (msg : String),
      executeSimplified hooks true mapActs urls (.threw steps msg) =
        .ok { success := false,
              actions := (runStateSimplified hooks mapActs urls steps).core.actions,
              message := "Failed to execute task: " ++ msg,
              completed := false, usage := none })
    ∧ (∀ (mapActs : MapActs) (urls : Nat → String) (out : GenOutcome),
      executeBase false mapActs urls out = .error .missingLLMConfiguration)
    ∧ (∀ (hooks : Hooks) (mapActs : MapActs) (urls : Nat → String) (out : GenOutcome),
      executeSimplified hooks false mapActs urls out =
        .ok { success := false, actions := [],
              message := "Failed to execute task: "
                ++ SdkError.message .missingLLMConfiguration,
              completed := false, usage := none }) := by
  refine ⟨fun _ _ _ _ => rfl, fun _ _ _ _ _ => rfl, fun _ _ _ => rfl,
    fun _ _ _ _ => rfl⟩

/-- C8: if every invocation of the caller-supplied `on_step_start` and
`on_step_end` hooks raises, the run still completes and its final
`AgentResult` is identical to that of the same run with no hooks: hook
failures are caught, logged and swallowed, and a raising `on_step_start`
never returns the truthy stop signal, so the run state evolves exactly as
without hooks. -/
theorem c8_hook_failures_swallowed (hooks : Hooks)
    (hs : ∀ f, hooks.onStepStart = some f → ∀ n, (f n).isRaised = true)
    (_he : ∀ g, hooks.onStepEnd = some g → ∀ n, (g n).isRaised = true)
    (hasModel : Bool) (mapActs : MapActs) (urls : Nat → String)
    (out : GenOutcome) :
    executeSimplified hooks hasModel mapActs urls out =
      executeSimplified noHooks hasModel mapActs urls out := by
  have hstart : ∀ n : Nat, startStopOf hooks n = false := by
    intro n
    rw [startStopOf]
    match hf : hooks.onStepStart with
    | none => rfl
    | some f =>
      show (match f n with
            | HookOutcome.ret b => b
            | HookOutcome.raised _ => false) = false
      have hraise := hs f hf n
      match hfn : f n with
      | .ret b =>
        rw [hfn] at hraise
        exact absurd hraise (by simp [HookOutcome.isRaised])
      | .raised m => rfl
  have hstep : ∀ (newUrl : String) (st : SimpState) (ev : Step),
      stepFinishSimplified hooks mapActs newUrl st ev =
        stepFinishSimplified noHooks mapActs newUrl st ev := by
    intro newUrl st ev
    rw [stepFinishSimplified, stepFinishSimplified,
      hstart (st.stepNumber + 1),
      show startStopOf noHooks (st.stepNumber + 1) = false from rfl]
  have hrun : ∀ steps : List Step,
      runStateSimplified hooks mapActs urls steps =
        runStateSimplified noHooks mapActs urls steps := by
    intro steps
    rw [runStateSimplified, runStateSimplified]
    have hfun : (fun (st : SimpState) (p : Nat × Step) =>
        stepFinishSimplified hooks mapActs (urls (p.1 + 1)) st p.2)
        = fun (st : SimpState) (p : Nat × Step) =>
            stepFinishSimplified noHooks mapActs (urls (p.1 + 1)) st p.2 := by
      funext st p
      exact hstep (urls (p.1 + 1)) st p.2
    rw [hfun]
  match hasModel with
  | false => rfl
  | true =>
    match out with
    | .threw steps msg =>
      simp only [executeSimplified, hrun steps]
    | .finished steps text usage =>
      simp only [executeSimplified, hrun steps]

/-- Hooks that raise on every invocation. -/
def raisingHooks : Hooks :=
  { onStepStart := some (fun _ => .raised "hook failure"),
    onStepEnd := some (fun _ => .raised "hook failure") }

/-- C8 witness -/
theorem c8_hook_failures_swallowed_witness :
    executeSimplified raisingHooks true mapActsNone urlsConst
        (.finished [closeStep] "" none)
      = executeSimplified noHooks true mapActsNone urlsConst
        (.finished [closeStep] "" none)
    ∧ executeSimplified noHooks true mapActsNone urlsConst
        (.finished [closeStep] "" none)
      = .ok { success := true, message := "Task completed successfully",
              actions := [], completed := true, usage := none } := by
  constructor
  · refine c8_hook_failures_swallowed raisingHooks ?_ ?_ true mapActsNone urlsConst
      (.finished [closeStep] "" none)
    · intro f hf n
      have hfe : (fun _ : Nat => HookOutcome.raised "hook failure") = f :=
        Option.some.inj hf
      rw [← hfe]
      rfl
    · intro g hg n
      have hge : (fun _ : Nat => HookOutcome.raised "hook failure") = g :=
        Option.some.inj hg
      rw [← hge]
      rfl
  · rfl

/-! ## Computer-use action executor (`V3CuaAgentHandler`, `src/unnamed/part_002`)

The `type` case of `executeAction` with its replay recording.  The page
primitives are external; `computeActiveElementXpath` is passed in as the
`activeXpath` argument.  String `.length` counts characters (the source's
UTF-16 units coincide on the ASCII inputs of interest). -/

/-- Embeds `ensureXPath` (lines 460–465): normalize a driver-reported locator to
the canonical `xpath=` form; non-strings and blank strings mean "no
locator". -/
def ensureXPath (value : Option String) : Option String :=
  match value with
  | none => none
  | some s =>
    let trimmed := jsTrim s
    if trimmed = "" then none
    else if jsStartsWith trimmed "xpath=" then some trimmed
    else some ("xpath=" ++ trimmed)

/-- Embeds `describeTypeAction` (lines 476–479): the recorded description of a
`type` action — the text truncated to its first 27 characters plus an
ellipsis when *longer than 30* characters, unchanged otherwise, wrapped as
`type "<snippet>"`. -/
def describeTypeAction (text : String) : String :=
  let snippet :=
    if text.length > 30 then String.mk (text.data.take 27) ++ "..." else text
  "type \"" ++ snippet ++ "\""

/-- One action of a recorded replay step (`Action` of the public types). -/
structure StagehandAct where
  selector : String
  description : String
  method : String
  arguments : List String
  deriving DecidableEq, Repr

/-- The fields of the incoming `AgentAction` that the recording reads. -/
structure CuaAgentAction where
  action : Option String
  reasoning : Option String
  deriving DecidableEq, Repr

/-- The recorded `act` replay step (`recordAgentReplayStep` payload). -/
structure ReplayActStep where
  instruction : String
  actions : List StagehandAct
  actionDescription : String
  message : Option String
  deriving DecidableEq, Repr

/-- Embeds `buildInstructionFallback` (lines 485–494). -/
def buildInstructionFallback (agentAction : CuaAgentAction) (fallback : String) :
    String :=
  let fromAction :=
    match agentAction.action with
    | some s => jsTrim s
    | none => ""
  let raw :=
    if fromAction ≠ "" then fromAction
    else
      match agentAction.reasoning with
      | some s => jsTrim s
      | none => ""
  if raw ≠ "" then raw else fallback

/-- Embeds `recordCuaActStep` (lines 496–519): skip empty action lists, default
missing descriptions from the first action's description (or the
instruction), and attach the trimmed reasoning as the step message. -/
def recordCuaActStep (agentAction : CuaAgentAction)
    (stagehandActions : List StagehandAct) (fallback : String) :
    Option ReplayActStep :=
  if stagehandActions.isEmpty then none
  else
    let instruction := buildInstructionFallback agentAction fallback
    let description :=
      match stagehandActions.head? with
      | some a => if a.description ≠ "" then a.description else instruction
      | none => instruction
    let actions := stagehandActions.map (fun act =>
      { act with
        description := if act.description = "" then description else act.description })
    some { instruction := instruction, actions := actions,
           actionDescription := description,
           message :=
             match agentAction.reasoning with
             | some r => if jsTrim r ≠ "" then some (jsTrim r) else none
             | none => none }

/-- The `type` case of `executeAction` (lines 289–310): type the text,
and — when recording is active and the focused element resolves to a
locator — record one replay step whose single action types the text at
that locator, described by `describeTypeAction`. -/
def executeTypeAction (recording : Bool) (activeXpath : Option String)
    (agentAction : CuaAgentAction) (text : String) : Option ReplayActStep :=
  if recording then
    match ensureXPath activeXpath with
    | some normalized =>
      let stagehandAction : StagehandAct :=
        { selector := normalized, description := describeTypeAction text,
          method := "type", arguments := [text] }
      recordCuaActStep agentAction [stagehandAction] stagehandAction.description
    | none => none
  else none

theorem describeTypeAction_ne_empty (text : String) :
    describeTypeAction text ≠ "" := by
  rw [describeTypeAction]
  intro h
  have h2 := congrArg String.length h
  rw [String.length_append, String.length_append] at h2
  have hp : ("type \"" : String).length = 6 := rfl
  have hq : ("\"" : String).length = 1 := rfl
  have hz : ("" : String).length = 0 := rfl
  omega

/-- Lemma: `recordCuaActStep` on a one-action list with a non-empty description
keeps the action unchanged and uses its description as the step
description. -/
theorem recordCuaActStep_singleton (a : CuaAgentAction) (act : StagehandAct)
    (h : act.description ≠ "") :
    recordCuaActStep a [act] act.description =
      some { instruction := buildInstructionFallback a act.description,
             actions := [act],
             actionDescription := act.description,
             message :=
               match a.reasoning with
               | some r => if jsTrim r ≠ "" then some (jsTrim r) else none
               | none => none } := by
  rw [recordCuaActStep]
  simp [List.head?, h]

/-- The `type` case unfolded at a resolved locator. -/
theorem executeTypeAction_eq (xp : Option String) (a : CuaAgentAction)
    (text n : String) (hxp : ensureXPath xp = some n) :
    executeTypeAction true xp a text =
      recordCuaActStep a
        [{ selector := n, description := describeTypeAction text,
           method := "type", arguments := [text] }]
        (describeTypeAction text) := by
  rw [executeTypeAction, hxp]
  rfl

/-- A 28-character text: longer than 27, not longer than 30. -/
def text28 : String := "aaaaaaaaaaaaaaaaaaaaaaaaaaaa"

/-- C9 counterexample: typing a 28-character text while recording yields a
replay description carrying the text *unchanged* (`type "<all 28 chars>"`),
although the text is longer than 27 characters; the truncation threshold
in the code is 30, not 27, so the claimed "first 27 characters followed by
an ellipsis whenever the text is longer than 27" fails on texts of length
28–30. -/
theorem c9_counterexample :
    text28.length = 28
    ∧ (executeTypeAction true (some "/html/body/input")
        { action := none, reasoning := none } text28).map
        (fun s => s.actionDescription)
      = some ("type \"" ++ text28 ++ "\"")
    ∧ ("type \"" ++ text28 ++ "\"")
      ≠ ("type \"" ++ String.mk (text28.data.take 27) ++ "..." ++ "\"") := by
  refine ⟨rfl, rfl, by decide⟩

/-- C9 (amended): for every executed `type` action while recording is
active whose focused element resolves to a locator, the recorded replay
step holds exactly one action: it types the text at the resolved locator,
and its description — equal to the step's `actionDescription` — is
`type "<snippet>"` where the snippet is the first 27 characters of the
text followed by an ellipsis whenever the text is longer than 30
characters, and the text itself unchanged otherwise. -/
theorem c9_type_truncation (recording : Bool) (xp : Option String)
    (a : CuaAgentAction) (text n : String)
    (hrec : recording = true) (hxp : ensureXPath xp = some n) :
    ∃ step, executeTypeAction recording xp a text = some step
      ∧ step.actionDescription =
          "type \"" ++ (if text.length > 30
            then String.mk (text.data.take 27) ++ "..." else text) ++ "\""
      ∧ step.actions.map (fun s => s.description) = [step.actionDescription]
      ∧ step.actions.map (fun s => s.selector) = [n]
      ∧ step.actions.map (fun s => s.arguments) = [[text]] := by
  subst hrec
  rw [executeTypeAction_eq xp a text n hxp]
  have hne := describeTypeAction_ne_empty text
  rw [recordCuaActStep_singleton a _ hne]
  exact ⟨_, rfl, rfl, rfl, rfl, rfl⟩

/-- C9 witness -/
theorem c9_type_truncation_witness :
    ∃ step, executeTypeAction true (some "/html/body/input")
        { action := none, reasoning := none } "hello" = some step
      ∧ step.actionDescription =
          "type \"" ++ (if ("hello" : String).length > 30
            then String.mk (("hello" : String).data.take 27) ++ "..." else "hello") ++ "\""
      ∧ step.actions.map (fun s => s.description) = [step.actionDescription]
      ∧ step.actions.map (fun s => s.selector) = ["xpath=/html/body/input"]
      ∧ step.actions.map (fun s => s.arguments) = [["hello"]] :=
  c9_type_truncation true (some "/html/body/input")
    { action := none, reasoning := none } "hello" "xpath=/html/body/input"
    rfl (by decide)

end Stagehand
